import Mathlib

/-!
Verification of `scripts/fetch.py` (URL → content materializer).

The Python source is shallowly embedded below.  External effects are
modelled as oracle parameters:
* `net` models the HTTP transport underneath `urllib.request.urlopen`
  (success body / HTTPError / URLError / other exception),
* `render` models the headless-browser session of `fetch_via_playwright`
  (extracted content and title, or an exception),
* `jp` models `json.loads` (`none` = `json.JSONDecodeError`),
* `clock` models `datetime.now(timezone.utc)` (whole seconds; the k-th
  call of a run returns `clock k`),
* `fetchO` models `fetch_url` as seen by the queue runner.

Strings are modelled at the character level (ASCII semantics for
`str.lower`, `\w`, `\s`; all literals in the source are ASCII).  Machine
file system state is modelled by explicit lists of queue files and
written outputs.
-/

namespace Dmz

set_option maxRecDepth 16384

/-! ### Python string primitives (ASCII model) -/

/-- Python `str.isspace` characters relevant to `\s` and `str.strip()`:
space, tab, newline, carriage return, vertical tab, form feed. -/
def isPySpace (c : Char) : Bool :=
  c == ' ' || c == '\t' || c == '\n' || c == '\r' || c == '\x0b' || c == '\x0c'

/-- `str.strip()` on a character list. -/
def pyStripList (l : List Char) : List Char :=
  ((l.dropWhile isPySpace).reverse.dropWhile isPySpace).reverse

/-- Python `str.strip()`. -/
def pyStrip (s : String) : String := ⟨pyStripList s.data⟩

/-- ASCII `str.lower` on one character. -/
def pyLowerChar (c : Char) : Char :=
  if 65 ≤ c.toNat ∧ c.toNat ≤ 90 then Char.ofNat (c.toNat + 32) else c

/-- Python `str.lower` (ASCII model; every literal matched in the source is ASCII). -/
def pyLower (s : String) : String := ⟨s.data.map pyLowerChar⟩

/-- `pat` occurs at the head of `s`. -/
def startsWithList : List Char → List Char → Bool
  | [], _ => true
  | _ :: _, [] => false
  | p :: ps, c :: cs => p == c && startsWithList ps cs

/-- `pat` occurs somewhere in `s` (Python `pat in s`). -/
def hasSubList (pat : List Char) : List Char → Bool
  | [] => startsWithList pat []
  | c :: rest => startsWithList pat (c :: rest) || hasSubList pat rest

/-- Python `pat in s` on strings. -/
def containsStr (s pat : String) : Bool := hasSubList pat.data s.data

/-- Python `s.startswith(pat)` on strings. -/
def strStarts (s pat : String) : Bool := startsWithList pat.data s.data

/-- Python `content.split("\n")` (list of lines, keeps empty pieces). -/
def splitLines : List Char → List (List Char)
  | [] => [[]]
  | '\n' :: rest => [] :: splitLines rest
  | c :: rest =>
    match splitLines rest with
    | h :: t => (c :: h) :: t
    | [] => [[c]]

/-- Python `content.split("\n\n", 1)`: split at the first occurrence of a
blank line separator, if any. -/
def splitTwoNl : List Char → Option (List Char × List Char)
  | [] => none
  | '\n' :: '\n' :: rest => some ([], rest)
  | c :: rest => (splitTwoNl rest).map (fun p => (c :: p.1, p.2))

/-! ### Source constants (`fetch.py` lines 22–50)

The three `JS_REQUIRED_PATTERNS` regexes contain only backslash-escaped
dots, so `re.search(pattern, url)` is literal substring search; the
patterns are embedded with the escapes resolved. -/

def JINA_READER_PREFIX : String := "https://r.jina.ai/"

def JS_REQUIRED_PATTERNS : List String :=
  ["claude.ai/share/", "chatgpt.com/share/", "chat.openai.com/share/"]

def LOGIN_PAGE_INDICATORS : List String :=
  ["Continue with Google", "Continue with email", "Log in", "Sign up",
   "Create an account"]

def CLOUDFLARE_INDICATORS : List String :=
  ["Just a moment...", "Verify you are human", "checking your browser",
   "Enable JavaScript and cookies", "Ray ID:", "cloudflare"]

/-! ### Strategy selector and content validators (`fetch.py` 112–133) -/

/-- `needs_js_rendering(url)`. -/
def needs_js_rendering (url : String) : Bool :=
  JS_REQUIRED_PATTERNS.any (fun pattern => containsStr url pattern)

/-- `is_login_page(content)`. -/
def is_login_page (content : String) : Bool :=
  LOGIN_PAGE_INDICATORS.any (fun indicator => containsStr content indicator)

/-- `is_cloudflare_challenge(content)`: at least two indicators occur
case-insensitively. -/
def is_cloudflare_challenge (content : String) : Bool :=
  let contentLower := pyLower content
  2 ≤ (CLOUDFLARE_INDICATORS.filter
        (fun indicator => containsStr contentLower (pyLower indicator))).length

/-! ### Title extraction and URL helpers (`fetch.py` 164–172) -/

/-- Semantics of the tail `\s+(.+)$` of `re.search(r"^#\s+(.+)$", _, re.MULTILINE)`
applied right after a line-initial `#`: at least one whitespace character
(which may include newlines), then the group is the longest run of
non-newline characters starting at the first position a backtracking
engine accepts — the first non-whitespace character if one follows the
whitespace run, otherwise the last non-newline whitespace position. -/
def titleGroup (l : List Char) : Option (List Char) :=
  let w := l.takeWhile isPySpace
  if w.isEmpty then none
  else
    let afterW := l.dropWhile isPySpace
    if afterW.isEmpty then
      match ((List.range w.length).filter
              (fun k => k != 0 && !(w.getD k '\n' == '\n'))).getLast? with
      | some k => some ((l.drop k).takeWhile (fun c => c != '\n'))
      | none => none
    else some (afterW.takeWhile (fun c => c != '\n'))

/-- Leftmost match of `re.search(r"^#\s+(.+)$", content, re.MULTILINE)`:
scan the text, attempting `titleGroup` after each line-initial `#`. -/
def findTitleAux : Bool → List Char → Option (List Char)
  | _, [] => none
  | atStart, c :: rest =>
    if atStart && c == '#' then
      match titleGroup rest with
      | some g => some g
      | none => findTitleAux (c == '\n') rest
    else findTitleAux (c == '\n') rest

/-- The group of the first `^#\s+(.+)$` match in `content`, if any. -/
def findTitleStr (content : String) : Option String :=
  (findTitleAux true content.data).map (fun g => (⟨g⟩ : String))

/-- Characters allowed in a URL scheme by `urllib.parse`. -/
def isSchemeChar (c : Char) : Bool :=
  c.isAlpha || c.isDigit || c == '+' || c == '-' || c == '.'

/-- `urlparse(url).netloc`: the part after a leading `//` (a `scheme:`
prefix stripped first), up to the next `/`, `?` or `#`. -/
def netlocOf (url : String) : String :=
  let cs := url.data
  let rest :=
    match cs with
    | [] => ([] : List Char)
    | c :: _ =>
      if c.isAlpha then
        match cs.dropWhile isSchemeChar with
        | ':' :: tail => tail
        | _ => cs
      else cs
  match rest with
  | '/' :: '/' :: tail =>
    ⟨tail.takeWhile (fun c => c != '/' && c != '?' && c != '#')⟩
  | _ => ""

/-- Consume a literal `https://` or `http://` prefix (the deterministic
reading of the regex piece `https?://`). -/
def takeScheme : List Char → Option (List Char × List Char)
  | 'h' :: 't' :: 't' :: 'p' :: 's' :: ':' :: '/' :: '/' :: rest =>
    some ("https://".data, rest)
  | 'h' :: 't' :: 't' :: 'p' :: ':' :: '/' :: '/' :: rest =>
    some ("http://".data, rest)
  | _ => none

/-! ### Fetchers (`fetch.py` 136–297) -/

/-- A `FetchOutcome` dict: `success`, `title`, `content`, `error`. -/
structure FetchResult where
  success : Bool
  title : String
  content : String
  error : Option String
deriving DecidableEq

/-- Transport-level outcome of `urllib.request.urlopen` on the proxy URL. -/
inductive NetResponse where
  | ok (body : String)
  | httpError (code : Nat) (reason : String)
  | urlError (reason : String)
  | exc (msg : String)

/-- `fetch_via_jina(url)`, with the HTTP transport as the oracle `net`. -/
def fetch_via_jina (net : String → NetResponse) (url : String) : FetchResult :=
  match net (JINA_READER_PREFIX ++ url) with
  | .ok content =>
    if is_login_page content then
      ⟨false, "", "",
       some "Got login page instead of content (JS rendering required)"⟩
    else
      let title :=
        match findTitleStr content with
        | some g => pyStrip g
        | none => netlocOf url
      ⟨true, title, content, none⟩
  | .httpError code reason =>
    ⟨false, "", "", some ("HTTP " ++ toString code ++ ": " ++ reason)⟩
  | .urlError reason => ⟨false, "", "", some ("URL Error: " ++ reason)⟩
  | .exc msg => ⟨false, "", "", some msg⟩

/-- Outcome of one headless-browser navigation-and-extraction session
(the bodies of the three URL-shape branches of `fetch_via_playwright`). -/
inductive RenderOutcome where
  | ok (content : String) (title : String)
  | exc (msg : String)

/-- `fetch_via_playwright(url)`: `pwInstalled` models the import guard,
`render` the browser session. -/
def fetch_via_playwright (pwInstalled : Bool) (render : String → RenderOutcome)
    (url : String) : FetchResult :=
  if !pwInstalled then
    ⟨false, "", "",
     some "Playwright not installed. Run: pip install playwright && playwright install chromium"⟩
  else
    match render url with
    | .exc msg => ⟨false, "", "", some ("Playwright error: " ++ msg)⟩
    | .ok content title =>
      if content == "" || (pyStrip content).length < 100 then
        ⟨false, "", "", some "Failed to extract meaningful content"⟩
      else if is_cloudflare_challenge content || title == "Just a moment..." then
        ⟨false, "", "", some "Blocked by Cloudflare challenge (bot detection)"⟩
      else ⟨true, title, content, none⟩

/-- The fallback test of `fetch_url` (line 439):
`"login page" in error.lower() or "JS rendering" in error`. -/
def fallbackTriggered (err : String) : Bool :=
  containsStr (pyLower err) "login page" || containsStr err "JS rendering"

/-- `fetch_url(url)` (lines 419–443).  On a failed jina result the error
is read with `result.get("error", "")`; the `none` case of `getD` is
unreachable there because `error` is `none` only on success. -/
def fetch_url (net : String → NetResponse) (pwInstalled : Bool)
    (render : String → RenderOutcome) (url : String) : FetchResult :=
  if needs_js_rendering url then fetch_via_playwright pwInstalled render url
  else
    let result := fetch_via_jina net url
    if result.success then result
    else if fallbackTriggered (result.error.getD "") then
      fetch_via_playwright pwInstalled render url
    else result

/-! ### Input parser (`fetch.py` 53–109) -/

/-- A parsed JSON value, as returned by `json.loads`. -/
inductive JVal where
  | jnull
  | jbool (b : Bool)
  | jnum (n : Int)
  | jstr (s : String)
  | jarr (xs : List JVal)
  | jobj (fields : List (String × JVal))

/-- One `{url, note}` dict produced by `parse_input_file`.  The JSON
branch copies values through unchanged, so the fields are JSON values;
the other branches always produce strings. -/
structure PQItem where
  url : JVal
  note : JVal

/-- An exception escaping `parse_input_file` (only `json.JSONDecodeError`
is caught there). -/
inductive PyErr where
  | attributeError
deriving DecidableEq

/-- `data.get(key, "")` on a parsed JSON object. -/
def jsonGet (fields : List (String × JVal)) (key : String) : JVal :=
  match fields.lookup key with
  | some v => v
  | none => .jstr ""

/-- The list comprehension over a parsed JSON array: raises
`AttributeError` at an element that is not an object. -/
def jsonItems : List JVal → Except PyErr (List PQItem)
  | [] => .ok []
  | .jobj fields :: rest =>
    (jsonItems rest).map
      (fun tail => ⟨jsonGet fields "url", jsonGet fields "note"⟩ :: tail)
  | _ :: _ => .error .attributeError

/-- The structured (JSON) branch of `parse_input_file` (lines 67–76):
`none` means the branch falls through — the text does not start with a
brace or bracket, `json.loads` raised `JSONDecodeError`, or the parsed
value is neither a dict nor a list (no `return` executes). -/
def jsonBranch (jp : String → Option JVal) (content : String) :
    Option (Except PyErr (List PQItem)) :=
  if strStarts content "\x7b" || strStarts content "[" then
    match jp content with
    | some (.jobj fields) =>
      some (.ok [⟨jsonGet fields "url", jsonGet fields "note"⟩])
    | some (.jarr xs) => some (jsonItems xs)
    | some _ => none
    | none => none
  else none

/-- Match of `^[-*]\s+(https?://\S+)(?:\s+[—–-]\s+(.*))?$` against one
(stripped) line, returning `(url, note)`. -/
def matchListLine (line : String) : Option (String × String) :=
  match line.data with
  | [] => none
  | m :: rest =>
    if m == '-' || m == '*' then
      if (rest.takeWhile isPySpace).isEmpty then none
      else
        match takeScheme (rest.dropWhile isPySpace) with
        | none => none
        | some (scheme, afterScheme) =>
          let r := afterScheme.takeWhile (fun c => !(isPySpace c))
          if r.isEmpty then none
          else
            let urlStr : String := ⟨scheme ++ r⟩
            match afterScheme.dropWhile (fun c => !(isPySpace c)) with
            | [] => some (urlStr, "")
            | tail =>
              match tail.dropWhile isPySpace with
              | [] => none
              | d :: t2 =>
                if d == '—' || d == '–' || d == '-' then
                  if (t2.takeWhile isPySpace).isEmpty then none
                  else some (urlStr, ⟨t2.dropWhile isPySpace⟩)
                else none
    else none

/-- The matching bullet lines of a (stripped) text, in order. -/
def listItemsOf (content : String) : List (String × String) :=
  (splitLines content.data).filterMap
    (fun l => matchListLine (pyStrip ⟨l⟩))

/-- Full match of `^https?://\S+$` (the single-item form's URL test). -/
def isFullUrl (line : String) : Bool :=
  match takeScheme line.data with
  | some (_, rest) => !rest.isEmpty && rest.all (fun c => !(isPySpace c))
  | none => false

/-- Leftmost match of `re.search(r"https?://\S+", content)` (the
fallback form). -/
def findUrlIn : List Char → Option String
  | [] => none
  | c :: rest =>
    match takeScheme (c :: rest) with
    | some (scheme, after) =>
      let r := after.takeWhile (fun x => !(isPySpace x))
      if r.isEmpty then findUrlIn rest else some ⟨scheme ++ r⟩
    | none => findUrlIn rest

/-- `parse_input_file(content)` (lines 53–109), with `json.loads` as the
oracle `jp`.  The uncaught `AttributeError` of the JSON branch is
modelled by the `Except` error case. -/
def parse_input_file (jp : String → Option JVal) (raw : String) :
    Except PyErr (List PQItem) :=
  let content := pyStrip raw
  if content = "" then .ok []
  else
    match jsonBranch jp content with
    | some r => r
    | none =>
      let listItems := listItemsOf content
      if listItems ≠ [] then
        .ok (listItems.map (fun p => ⟨.jstr p.1, .jstr p.2⟩))
      else
        let firstPart : String :=
          match splitTwoNl content.data with
          | some (a, _) => ⟨a⟩
          | none => content
        let firstLine :=
          pyStrip ⟨(pyStrip firstPart).data.takeWhile (fun c => c != '\n')⟩
        if isFullUrl firstLine then
          let note : String :=
            match splitTwoNl content.data with
            | some (_, b) => pyStrip ⟨b⟩
            | none => ""
          .ok [⟨.jstr firstLine, .jstr note⟩]
        else
          match findUrlIn content.data with
          | some u => .ok [⟨.jstr u, .jstr ""⟩]
          | none => .ok []

/-! ### Output writer (`fetch.py` 446–485)

Timestamps are modelled as whole seconds.  `timestamp.strftime("%Y-%m-%dT%H%M%S")`
and `timestamp.isoformat()` render distinct whole-second instants to
distinct strings and equal instants to equal strings; those renderings
are modelled by the decimal rendering of the second count, which has the
same two properties. -/

/-- A decimal digit character. -/
def digitChar (d : Nat) : Char :=
  match d with
  | 0 => '0' | 1 => '1' | 2 => '2' | 3 => '3' | 4 => '4'
  | 5 => '5' | 6 => '6' | 7 => '7' | 8 => '8' | _ => '9'

/-- Decimal digits of `n`, most significant first (`[]` for `0`);
fuel-structured so it reduces definitionally. -/
def natDigitsAux : Nat → Nat → List Char
  | 0, _ => []
  | fuel + 1, n =>
    if n = 0 then [] else natDigitsAux fuel (n / 10) ++ [digitChar (n % 10)]

/-- Model of the compact filename timestamp (see section comment). -/
def tsCompact (t : Nat) : String := ⟨natDigitsAux (t + 1) t⟩

/-- Model of `timestamp.isoformat()` (see section comment). -/
def tsIso (t : Nat) : String := tsCompact t

/-- Python `\w` (ASCII model): letters, digits, underscore. -/
def isWordChar (c : Char) : Bool :=
  decide (97 ≤ c.toNat ∧ c.toNat ≤ 122) || decide (65 ≤ c.toNat ∧ c.toNat ≤ 90)
    || decide (48 ≤ c.toNat ∧ c.toNat ≤ 57) || c == '_'

/-- The character class `[-\s]` of the collapsing substitution. -/
def isDashOrSpace (c : Char) : Bool := c == '-' || isPySpace c

/-- `re.sub(r"[-\s]+", "-", _)`: each maximal run of hyphens and
whitespace becomes one hyphen.  The flag records whether the previous
character belonged to a run whose hyphen is already emitted. -/
def collapseAux : Bool → List Char → List Char
  | _, [] => []
  | inRun, c :: rest =>
    if isDashOrSpace c then
      if inRun then collapseAux true rest else '-' :: collapseAux true rest
    else c :: collapseAux false rest

/-- `re.sub(r"[-\s]+", "-", _)` on a character list. -/
def collapseDashSpace (l : List Char) : List Char := collapseAux false l

/-- Python `.strip("-")`. -/
def stripDashes (l : List Char) : List Char :=
  List.rdropWhile (fun c => c == '-') (l.dropWhile (fun c => c == '-'))

/-- `slugify(text, max_length=50)` (lines 446–451). -/
def slugify (text : String) (maxLength : Nat := 50) : String :=
  let kept := (pyLower text).data.filter
    (fun c => isWordChar c || isPySpace c || c == '-')
  ⟨(stripDashes (collapseDashSpace kept)).take maxLength⟩

/-- `note.replace('"', '\\"')`. -/
def escapeQuotes (s : String) : String :=
  ⟨s.data.foldr (fun c acc => if c == '"' then '\\' :: '"' :: acc else c :: acc) []⟩

/-- The frontmatter block built by `write_output` (lines 466–475). -/
def frontmatterOf (url title note : String) (timestamp : Nat) : String :=
  "---\nurl: " ++ url ++ "\ntitle: " ++ title ++ "\nfetched_at: "
    ++ tsIso timestamp ++ "\n"
    ++ (if note ≠ "" then "source_note: \"" ++ escapeQuotes note ++ "\"\n" else "")
    ++ "---\n\n"

/-- The file written by `write_output`: its name and full text. -/
structure OutputFile where
  filename : String
  body : String
deriving DecidableEq

/-- The slug component of the output filename:
`slugify(title) if title else slugify(urlparse(url).netloc)`. -/
def outSlug (title url : String) : String :=
  if title ≠ "" then slugify title else slugify (netlocOf url)

/-- `write_output(url, title, content, note, timestamp)` (lines 454–485). -/
def write_output (url title content note : String) (timestamp : Nat) :
    OutputFile :=
  let filename := tsCompact timestamp ++ "-" ++ outSlug title url ++ ".md"
  ⟨filename, frontmatterOf url title note timestamp ++ content⟩

/-! ### Queue runner (`fetch.py` 488–569)

Queue files are `(name, contents)` pairs; an unreadable file
(`read_text` raising) is `none`.  The model records which files remain
in the queue directory, which were deleted after processing, the run
counters, and every written output together with the timestamp passed to
`write_output`. -/

/-- One file of the queue directory. -/
structure QFile where
  name : String
  content : Option String
deriving DecidableEq

/-- Python truthiness of a parsed value (`if not url`, `if note`). -/
def pyTruthy : JVal → Bool
  | .jnull => false
  | .jbool b => b
  | .jnum n => n != 0
  | .jstr s => !(s == "")
  | .jarr xs => !xs.isEmpty
  | .jobj fields => !fields.isEmpty

/-- Python `str()` of a parsed value, used where the queue runner hands a
parsed field to `fetch_url`/`write_output`.  In every claim the fields
are strings; the non-string renderings are approximations of `str()`
(a non-string URL would in fact raise `TypeError` inside `re.search`). -/
def jvalStr : JVal → String
  | .jnull => "None"
  | .jbool true => "True"
  | .jbool false => "False"
  | .jnum n => toString n
  | .jstr s => s
  | .jarr _ => "[...]"
  | .jobj _ => "<dict>"

/-- The per-item loop of `process_queue` (lines 519–551): `i` is the
`enumerate` index, `k` counts the `datetime.now` calls made so far in
the run.  Returns (successes, failures, written `(timestamp, file)`
pairs, updated call count).  The timestamp is the `now()` reading plus
`i` seconds (the `i > 0` offset branch; the offset is zero when `i = 0`). -/
def processItems (fetchO : JVal → FetchResult) (clock : Nat → Nat) :
    List PQItem → Nat → Nat → Nat × Nat × List (Nat × OutputFile) × Nat
  | [], _, k => (0, 0, [], k)
  | item :: rest, i, k =>
    if pyTruthy item.url then
      let r := fetchO item.url
      if r.success then
        let t := clock k + i
        let out := write_output (jvalStr item.url) r.title r.content
          (jvalStr item.note) t
        let tail := processItems fetchO clock rest (i + 1) (k + 1)
        (tail.1 + 1, tail.2.1, (t, out) :: tail.2.2.1, tail.2.2.2)
      else
        let tail := processItems fetchO clock rest (i + 1) k
        (tail.1, tail.2.1 + 1, tail.2.2.1, tail.2.2.2)
    else processItems fetchO clock rest (i + 1) k

/-- Processing of one queue file (lines 505–560).  Returns (successes,
failures, whether the file was deleted, written outputs, updated call
count).  An unreadable file or a parse exception lands in the
`except` branch; a parse with zero URLs hits the `continue`; both skip
`queue_file.unlink()`. -/
def processFile (jp : String → Option JVal) (fetchO : JVal → FetchResult)
    (clock : Nat → Nat) (f : QFile) (k : Nat) :
    Nat × Nat × Bool × List (Nat × OutputFile) × Nat :=
  match f.content with
  | none => (0, 1, false, [], k)
  | some c =>
    match parse_input_file jp c with
    | .error _ => (0, 1, false, [], k)
    | .ok items =>
      if items.isEmpty then (0, 1, false, [], k)
      else
        let r := processItems fetchO clock items 0 k
        (r.1, r.2.1, true, r.2.2.1, r.2.2.2)

/-- The summary state of a queue run. -/
structure RunResult where
  success : Nat
  failed : Nat
  filesProcessed : List String
  remaining : List String
  outputs : List (Nat × OutputFile)
deriving DecidableEq

/-- Fold of `processFile` over the queue files. -/
def processQueueAux (jp : String → Option JVal) (fetchO : JVal → FetchResult)
    (clock : Nat → Nat) : List QFile → Nat → RunResult
  | [], _ => ⟨0, 0, [], [], []⟩
  | f :: rest, k =>
    let step := processFile jp fetchO clock f k
    let r := processQueueAux jp fetchO clock rest step.2.2.2.2
    ⟨step.1 + r.success, step.2.1 + r.failed,
     (if step.2.2.1 then [f.name] else []) ++ r.filesProcessed,
     (if step.2.2.1 then [] else [f.name]) ++ r.remaining,
     step.2.2.2.1 ++ r.outputs⟩

/-- `process_queue()` (lines 488–569) over a given queue directory
listing (`.gitkeep` is skipped, as in line 495). -/
def process_queue (jp : String → Option JVal) (fetchO : JVal → FetchResult)
    (clock : Nat → Nat) (files : List QFile) : RunResult :=
  processQueueAux jp fetchO clock (files.filter (fun f => f.name != ".gitkeep")) 0

/-- A queue file that "fails entirely": unreadable, parse exception, or
zero parsed URLs. -/
def fileFails (jp : String → Option JVal) (f : QFile) : Bool :=
  match f.content with
  | none => true
  | some c =>
    match parse_input_file jp c with
    | .error _ => true
    | .ok items => items.isEmpty

/-- The number of failures one queue file contributes to the run
summary: one for an entirely failing file, else one per truthy-URL item
whose fetch fails. -/
def fileFailCount (jp : String → Option JVal) (fetchO : JVal → FetchResult)
    (f : QFile) : Nat :=
  match f.content with
  | none => 1
  | some c =>
    match parse_input_file jp c with
    | .error _ => 1
    | .ok items =>
      if items.isEmpty then 1
      else (items.filter
        (fun it => pyTruthy it.url && !(fetchO it.url).success)).length

/-! ### Concrete oracles and inputs used by the witnesses and
counterexamples below -/

/-- A `json.loads` oracle for inputs that are not valid JSON. -/
def jpNone : String → Option JVal := fun _ => none

/-- `json.loads` on the queued text `[5]`: a JSON array holding the
number `5`. -/
def jpArrNum : String → Option JVal :=
  fun s => if s = "[5]" then some (.jarr [.jnum 5]) else none

/-- A transport that raises a generic exception whose text mentions a
login page in capital letters. -/
def netLoginCaps : String → NetResponse := fun _ => .exc "LOGIN PAGE check"

/-- A transport returning a plain markdown body. -/
def netPlainOk : String → NetResponse := fun _ => .ok "# A Title\n\nplain body"

/-- A transport returning a body that trips the login-wall validator. -/
def netGoogleWall : String → NetResponse := fun _ => .ok "Continue with Google"

/-- A transport failing with an HTTP error status. -/
def netHttpFail : String → NetResponse := fun _ => .httpError 500 "Server Error"

/-- A transport returning an empty body. -/
def netEmptyBody : String → NetResponse := fun _ => .ok ""

/-- A transport raising an exception with an empty message. -/
def netEmptyExc : String → NetResponse := fun _ => .exc ""

/-- A browser session that always raises. -/
def renderNoop : String → RenderOutcome := fun _ => .exc "unused"

/-- A browser session extracting a long, unremarkable page. -/
def renderLong : String → RenderOutcome :=
  fun _ => .ok ⟨List.replicate 120 'x'⟩ "Long Page"

/-- The structured-list scenario text of the spec. -/
def exampleListText : String :=
  "- https://example.com/a — first\n- https://example.com/b"

/-- A 51-character title whose slug is truncated through its hyphen. -/
def longATitle : String := ⟨List.replicate 49 'a' ++ [' ', 'b']⟩

/-- A fetch oracle that always fails with a transport error. -/
def fetchNever : JVal → FetchResult :=
  fun _ => ⟨false, "", "", some "URL Error: unreachable"⟩

/-- A fetch oracle that always succeeds with one fixed title. -/
def fetchTitleT : JVal → FetchResult := fun _ => ⟨true, "Same Title", "body", none⟩

/-- A queue item for `https://example.com/a`. -/
def itemA : PQItem := ⟨.jstr "https://example.com/a", .jstr ""⟩

/-- A queue item for `https://example.com/b`. -/
def itemB : PQItem := ⟨.jstr "https://example.com/b", .jstr ""⟩

/-! ### Claim C5 -/

/-- Claim C5: `needs_js_rendering(url)` holds exactly when the URL
contains one of the three share-link substrings `claude.ai/share/`,
`chatgpt.com/share/`, `chat.openai.com/share/`; it is a pure predicate
of the URL string. -/
theorem needs_js_rendering_iff (url : String) :
    needs_js_rendering url = true ↔
      (containsStr url "claude.ai/share/" = true ∨
       containsStr url "chatgpt.com/share/" = true ∨
       containsStr url "chat.openai.com/share/" = true) := by
  simp [needs_js_rendering, JS_REQUIRED_PATTERNS]

/-! ### Claim C4 -/

/-- Claim C4: `is_login_page` fires on any text containing one of the
fixed login-wall phrases (a single `"Sign up"` suffices), and
`is_cloudflare_challenge` does not fire when exactly one indicator
occurs case-insensitively but does fire whenever two distinct
indicators co-occur. -/
theorem validators_spec (t : String) :
    (∀ p ∈ LOGIN_PAGE_INDICATORS, containsStr t p = true → is_login_page t = true) ∧
    (containsStr t "Sign up" = true → is_login_page t = true) ∧
    ((CLOUDFLARE_INDICATORS.filter
        (fun indicator => containsStr (pyLower t) (pyLower indicator))).length = 1 →
      is_cloudflare_challenge t = false) ∧
    (∀ p₁ ∈ CLOUDFLARE_INDICATORS, ∀ p₂ ∈ CLOUDFLARE_INDICATORS, p₁ ≠ p₂ →
      containsStr (pyLower t) (pyLower p₁) = true →
      containsStr (pyLower t) (pyLower p₂) = true →
      is_cloudflare_challenge t = true) := by
  refine ⟨?_, ?_, ?_, ?_⟩
  · intro p hp h
    exact List.any_eq_true.mpr ⟨p, hp, h⟩
  · intro h
    exact List.any_eq_true.mpr ⟨"Sign up", by decide, h⟩
  · intro h
    simp only [is_cloudflare_challenge, h]
    decide
  · intro p₁ h₁ p₂ h₂ hne hc₁ hc₂
    simp only [is_cloudflare_challenge, decide_eq_true_eq]
    have hsub : [p₁, p₂] ⊆ CLOUDFLARE_INDICATORS.filter
        (fun indicator => containsStr (pyLower t) (pyLower indicator)) := by
      intro x hx
      have hx' : x = p₁ ∨ x = p₂ := by simpa using hx
      rcases hx' with rfl | rfl
      · exact List.mem_filter.mpr ⟨h₁, hc₁⟩
      · exact List.mem_filter.mpr ⟨h₂, hc₂⟩
    have hnd : ([p₁, p₂] : List String).Nodup := by
      simp [hne]
    simpa using (List.subperm_of_subset hnd hsub).length_le

/-! ### Claim C7 -/

/-- Claim C7 (code bug witness): on the queued text `[5]` — valid JSON,
but a sequence whose element is not an object — `parse_input_file`
raises an uncaught `AttributeError` (`item.get` on an `int`; only
`json.JSONDecodeError` is caught), instead of failing closed into the
list-form check as the spec requires. -/
theorem parse_json_nonobject_raises :
    parse_input_file jpArrNum "[5]" = .error .attributeError := rfl

/-- Witness for C4 at concrete texts: one `"Sign up"` fires the
login-wall validator; one lone indicator does not fire the Cloudflare
validator; two distinct indicators do. -/
theorem validators_spec_witness :
    is_login_page "Please Sign up today" = true ∧
    is_cloudflare_challenge "mentions cloudflare once" = false ∧
    is_cloudflare_challenge "Just a moment... Ray ID: 12ab" = true :=
  ⟨(validators_spec "Please Sign up today").2.1 (by decide),
   (validators_spec "mentions cloudflare once").2.2.1 (by decide),
   (validators_spec "Just a moment... Ray ID: 12ab").2.2.2
     "Just a moment..." (by decide) "Ray ID:" (by decide) (by decide)
     (by decide) (by decide)⟩

/-! ### Claim C1 -/

/-- Claim C1 (amended): `fetch_url` dispatch.  A share URL goes straight
to the rendered fetcher; otherwise the jina result is returned on
success; a jina failure falls back to the rendered fetcher exactly when
the error text contains `"login page"` case-insensitively (the source
lowercases the error first) or `"JS rendering"` case-sensitively; any
other jina failure is returned as-is. -/
theorem fetch_url_dispatch (net : String → NetResponse) (pwInstalled : Bool)
    (render : String → RenderOutcome) (url : String) :
    (needs_js_rendering url = true →
      fetch_url net pwInstalled render url
        = fetch_via_playwright pwInstalled render url) ∧
    (needs_js_rendering url = false →
      (fetch_via_jina net url).success = true →
      fetch_url net pwInstalled render url = fetch_via_jina net url) ∧
    (needs_js_rendering url = false →
      (fetch_via_jina net url).success = false →
      (containsStr (pyLower ((fetch_via_jina net url).error.getD "")) "login page" = true ∨
       containsStr ((fetch_via_jina net url).error.getD "") "JS rendering" = true) →
      fetch_url net pwInstalled render url
        = fetch_via_playwright pwInstalled render url) ∧
    (needs_js_rendering url = false →
      (fetch_via_jina net url).success = false →
      containsStr (pyLower ((fetch_via_jina net url).error.getD "")) "login page" = false →
      containsStr ((fetch_via_jina net url).error.getD "") "JS rendering" = false →
      fetch_url net pwInstalled render url = fetch_via_jina net url) := by
  refine ⟨fun h => by simp [fetch_url, h], fun h hs => by simp [fetch_url, h, hs], ?_, ?_⟩
  · intro h hs ht
    rcases ht with ht | ht <;>
      simp [fetch_url, h, hs, fallbackTriggered, ht]
  · intro h hs ht₁ ht₂
    simp [fetch_url, h, hs, fallbackTriggered, ht₁, ht₂]

/-- Counterexample to C1 as stated: a jina failure whose error text
contains `"login page"` only in capital letters.  The claim's reading
("error text contains \x22login page\x22") says the failure is returned
as-is, but the code lowercases the error first and falls back. -/
theorem fetch_url_dispatch_cex :
    needs_js_rendering "https://example.com/a" = false ∧
    (fetch_via_jina netLoginCaps "https://example.com/a").success = false ∧
    containsStr ((fetch_via_jina netLoginCaps "https://example.com/a").error.getD "")
      "login page" = false ∧
    containsStr ((fetch_via_jina netLoginCaps "https://example.com/a").error.getD "")
      "JS rendering" = false ∧
    fetch_url netLoginCaps false renderNoop "https://example.com/a"
      ≠ fetch_via_jina netLoginCaps "https://example.com/a" := by
  exact ⟨by decide, rfl, by decide, by decide, by decide⟩

/-- Witness for C1 on the four dispatch branches at concrete oracles. -/
theorem fetch_url_dispatch_witness :
    fetch_url netPlainOk false renderNoop "https://claude.ai/share/abc"
      = fetch_via_playwright false renderNoop "https://claude.ai/share/abc" ∧
    fetch_url netPlainOk false renderNoop "https://example.com/a"
      = fetch_via_jina netPlainOk "https://example.com/a" ∧
    fetch_url netGoogleWall false renderNoop "https://example.com/a"
      = fetch_via_playwright false renderNoop "https://example.com/a" ∧
    fetch_url netHttpFail false renderNoop "https://example.com/a"
      = fetch_via_jina netHttpFail "https://example.com/a" :=
  ⟨(fetch_url_dispatch netPlainOk false renderNoop "https://claude.ai/share/abc").1
     (by decide),
   (fetch_url_dispatch netPlainOk false renderNoop "https://example.com/a").2.1
     (by decide) (by decide),
   (fetch_url_dispatch netGoogleWall false renderNoop "https://example.com/a").2.2.1
     (by decide) (by decide) (Or.inl (by decide)),
   (fetch_url_dispatch netHttpFail false renderNoop "https://example.com/a").2.2.2
     (by decide) (by decide) (by decide) (by decide)⟩

/-! ### Claim C2 -/

/-- Claim C2 (amended): for a non-share URL whose proxy body contains
`"Continue with Google"`, `fetch_via_jina` fails naming the login-page
condition, and `fetch_url` DOES perform the fallback rendered fetch,
returning `fetch_via_playwright`'s result (the original claim asserted
no fallback and a failing final outcome). -/
theorem login_wall_fallback (net : String → NetResponse) (pwInstalled : Bool)
    (render : String → RenderOutcome) (url body : String)
    (h₁ : needs_js_rendering url = false)
    (h₂ : net (JINA_READER_PREFIX ++ url) = .ok body)
    (h₃ : containsStr body "Continue with Google" = true) :
    fetch_via_jina net url =
      ⟨false, "", "",
       some "Got login page instead of content (JS rendering required)"⟩ ∧
    fetch_url net pwInstalled render url
      = fetch_via_playwright pwInstalled render url := by
  have hlogin : is_login_page body = true :=
    List.any_eq_true.mpr ⟨"Continue with Google", by decide, h₃⟩
  have hjina : fetch_via_jina net url =
      ⟨false, "", "",
       some "Got login page instead of content (JS rendering required)"⟩ := by
    simp [fetch_via_jina, h₂, hlogin]
  refine ⟨hjina, ?_⟩
  have hs : (fetch_via_jina net url).success = false := by rw [hjina]
  have hfb : fallbackTriggered ((fetch_via_jina net url).error.getD "") = true := by
    rw [hjina]; decide
  simp [fetch_url, hs, h₁, hfb]

/-- Counterexample to C2 as stated: with a body `"Continue with Google"`
on a non-share URL the fallback rendered fetch IS performed and the
final outcome of `fetch_url` is the fallback's (here: a success). -/
theorem login_wall_fallback_cex :
    needs_js_rendering "https://example.com/doc" = false ∧
    (fetch_via_jina netGoogleWall "https://example.com/doc").success = false ∧
    fetch_url netGoogleWall true renderLong "https://example.com/doc"
      = fetch_via_playwright true renderLong "https://example.com/doc" ∧
    (fetch_url netGoogleWall true renderLong "https://example.com/doc").success
      = true := by
  exact ⟨by decide, rfl, by decide, by decide⟩

/-- Witness for C2 at a concrete transport and browser session. -/
theorem login_wall_fallback_witness :
    fetch_via_jina netGoogleWall "https://example.com/doc" =
      ⟨false, "", "",
       some "Got login page instead of content (JS rendering required)"⟩ ∧
    fetch_url netGoogleWall true renderLong "https://example.com/doc"
      = fetch_via_playwright true renderLong "https://example.com/doc" :=
  login_wall_fallback netGoogleWall true renderLong "https://example.com/doc"
    "Continue with Google" (by decide) rfl (by decide)

/-! ### Claim C3 -/

/-- Two strings with equal character data are equal. -/
theorem strExt {a b : String} (h : a.data = b.data) : a = b := by
  cases a; cases b; cases h; rfl

/-- Appending to a non-empty string is non-empty. -/
theorem strAppendNeEmpty (a b : String) (h : a.data ≠ []) : a ++ b ≠ "" := by
  intro hc
  have hd : a.data ++ b.data = [] := congrArg String.data hc
  exact h (List.append_eq_nil.mp hd).1

/-- Claim C3 (amended): every result of the fetchers and the
orchestrator has `error = none` on success and empty `content` with a
present `error` string on failure; `fetch_via_playwright` additionally
guarantees a non-empty `content` on success and a non-empty error text
on failure.  (`fetch_via_jina` can return a success with empty content —
an empty proxy body — and a failure whose error text is empty — a
transport exception with an empty message — so the original claim's
non-emptiness requirements fail for it and for `fetch_url`.) -/
theorem fetch_result_invariant :
    (∀ (net : String → NetResponse) (url : String),
      ((fetch_via_jina net url).success = true →
        (fetch_via_jina net url).error = none) ∧
      ((fetch_via_jina net url).success = false →
        (fetch_via_jina net url).content = "" ∧
        (fetch_via_jina net url).error ≠ none)) ∧
    (∀ (pwInstalled : Bool) (render : String → RenderOutcome) (url : String),
      ((fetch_via_playwright pwInstalled render url).success = true →
        (fetch_via_playwright pwInstalled render url).error = none ∧
        (fetch_via_playwright pwInstalled render url).content ≠ "") ∧
      ((fetch_via_playwright pwInstalled render url).success = false →
        (fetch_via_playwright pwInstalled render url).content = "" ∧
        ∃ e, (fetch_via_playwright pwInstalled render url).error = some e ∧
          e ≠ "")) ∧
    (∀ (net : String → NetResponse) (pwInstalled : Bool)
        (render : String → RenderOutcome) (url : String),
      ((fetch_url net pwInstalled render url).success = true →
        (fetch_url net pwInstalled render url).error = none) ∧
      ((fetch_url net pwInstalled render url).success = false →
        (fetch_url net pwInstalled render url).content = "" ∧
        (fetch_url net pwInstalled render url).error ≠ none)) := by
  have hjina : ∀ (net : String → NetResponse) (url : String),
      ((fetch_via_jina net url).success = true →
        (fetch_via_jina net url).error = none) ∧
      ((fetch_via_jina net url).success = false →
        (fetch_via_jina net url).content = "" ∧
        (fetch_via_jina net url).error ≠ none) := by
    intro net url
    rcases hnet : net (JINA_READER_PREFIX ++ url) with body | ⟨code, reason⟩ | reason | msg
    · by_cases h : is_login_page body = true
      · simp [fetch_via_jina, hnet, h]
      · simp [fetch_via_jina, hnet, h]
    · simp [fetch_via_jina, hnet]
    · simp [fetch_via_jina, hnet]
    · simp [fetch_via_jina, hnet]
  have hpw : ∀ (pwInstalled : Bool) (render : String → RenderOutcome)
      (url : String),
      ((fetch_via_playwright pwInstalled render url).success = true →
        (fetch_via_playwright pwInstalled render url).error = none ∧
        (fetch_via_playwright pwInstalled render url).content ≠ "") ∧
      ((fetch_via_playwright pwInstalled render url).success = false →
        (fetch_via_playwright pwInstalled render url).content = "" ∧
        ∃ e, (fetch_via_playwright pwInstalled render url).error = some e ∧
          e ≠ "") := by
    intro pwInstalled render url
    rcases pwInstalled with _ | _
    · simp [fetch_via_playwright]
    · rcases hr : render url with ⟨content, title⟩ | msg
      · by_cases hshort : (content == "" || (pyStrip content).length < 100) = true
        · simp [fetch_via_playwright, hr, hshort]
        · by_cases hcf :
            (is_cloudflare_challenge content || title == "Just a moment...") = true
          · simp [fetch_via_playwright, hr, hshort, hcf]
          · have hcne : content ≠ "" := by
              intro h
              simp [h] at hshort
            simp [fetch_via_playwright, hr, hshort, hcf, hcne]
      · constructor
        · intro h
          simp [fetch_via_playwright, hr] at h
        · intro _
          refine ⟨by simp [fetch_via_playwright, hr], "Playwright error: " ++ msg,
            by simp [fetch_via_playwright, hr], ?_⟩
          exact strAppendNeEmpty "Playwright error: " msg (by decide)
  refine ⟨hjina, hpw, ?_⟩
  intro net pwInstalled render url
  unfold fetch_url
  by_cases hjs : needs_js_rendering url = true
  · simp only [hjs, if_true]
    exact ⟨fun h => ((hpw pwInstalled render url).1 h).1,
           fun h => ⟨((hpw pwInstalled render url).2 h).1, by
             obtain ⟨e, he, -⟩ := ((hpw pwInstalled render url).2 h).2
             simp [he]⟩⟩
  · simp only [hjs, if_false, Bool.not_eq_true] at *
    simp only [hjs, Bool.false_eq_true, if_false]
    by_cases hs : (fetch_via_jina net url).success = true
    · simp [hs]
      exact (hjina net url).1 hs
    · have hs' : (fetch_via_jina net url).success = false := by
        simpa using hs
      simp only [hs', Bool.false_eq_true, if_false]
      by_cases hft :
          fallbackTriggered ((fetch_via_jina net url).error.getD "") = true
      · simp only [hft, if_true]
        exact ⟨fun h => ((hpw pwInstalled render url).1 h).1,
               fun h => ⟨((hpw pwInstalled render url).2 h).1, by
                 obtain ⟨e, he, -⟩ := ((hpw pwInstalled render url).2 h).2
                 simp [he]⟩⟩
      · simp only [Bool.not_eq_true] at hft
        simp only [hft, Bool.false_eq_true, if_false]
        exact ⟨fun h => absurd h (by simp [hs']),
               fun _ => (hjina net url).2 hs'⟩

/-- Counterexample to C3 as stated: an empty proxy body yields a jina
success whose `content` is the empty string, and a transport exception
with empty text yields a jina failure whose `error` is the empty
string. -/
theorem fetch_result_invariant_cex :
    fetch_via_jina netEmptyBody "https://example.com/x" =
      ⟨true, "example.com", "", none⟩ ∧
    fetch_via_jina netEmptyExc "https://example.com/x" =
      ⟨false, "", "", some ""⟩ := by
  exact ⟨rfl, rfl⟩

/-- Witness for C3 at concrete oracles, one per invariant branch. -/
theorem fetch_result_invariant_witness :
    (fetch_via_jina netEmptyBody "https://example.com/x").error = none ∧
    ((fetch_via_jina netEmptyExc "https://example.com/x").content = "" ∧
      (fetch_via_jina netEmptyExc "https://example.com/x").error ≠ none) ∧
    ((fetch_via_playwright false renderNoop "https://example.com/x").content = "" ∧
      ∃ e, (fetch_via_playwright false renderNoop "https://example.com/x").error
          = some e ∧ e ≠ "") ∧
    ((fetch_via_playwright true renderLong "https://example.com/x").error = none ∧
      (fetch_via_playwright true renderLong "https://example.com/x").content ≠ "") ∧
    (fetch_url netEmptyExc false renderNoop "https://example.com/x").content = "" :=
  ⟨(fetch_result_invariant.1 netEmptyBody "https://example.com/x").1 (by decide),
   (fetch_result_invariant.1 netEmptyExc "https://example.com/x").2 (by decide),
   ((fetch_result_invariant.2.1 false renderNoop "https://example.com/x").2
      (by decide)),
   ((fetch_result_invariant.2.1 true renderLong "https://example.com/x").1
      (by decide)),
   ((fetch_result_invariant.2.2 netEmptyExc false renderNoop
      "https://example.com/x").2 (by decide)).1⟩

/-! ### Claim C6 -/

/-- Claim C6: when at least one line of the stripped queued text matches
the bullet-list shape and the higher-priority structured (JSON) branch
does not apply, `parse_input_file` returns exactly one item per matching
line, in original order — in particular taking priority over the
single-item form.  The JSON-branch hypothesis is the oracle-model
rendering of the fact that text containing a bullet line is never valid
JSON. -/
theorem parse_list_form (jp : String → Option JVal) (raw : String)
    (h₁ : listItemsOf (pyStrip raw) ≠ [])
    (h₂ : jsonBranch jp (pyStrip raw) = none) :
    parse_input_file jp raw =
      .ok ((listItemsOf (pyStrip raw)).map (fun p => ⟨.jstr p.1, .jstr p.2⟩)) := by
  have hne : ¬(pyStrip raw = "") := by
    intro h
    rw [h] at h₁
    exact h₁ rfl
  simp [parse_input_file, hne, h₂, h₁]

/-- Witness for C6 on the spec's structured-list scenario text. -/
theorem parse_list_form_witness :
    listItemsOf (pyStrip exampleListText) ≠ [] ∧
    jsonBranch jpNone (pyStrip exampleListText) = none ∧
    parse_input_file jpNone exampleListText =
      .ok [⟨.jstr "https://example.com/a", .jstr "first"⟩,
           ⟨.jstr "https://example.com/b", .jstr ""⟩] := by
  refine ⟨by decide, rfl, ?_⟩
  rw [parse_list_form jpNone exampleListText (by decide) rfl]
  rfl

/-! ### Helper lemmas for the output writer -/

/-- The head of a collapsed run that starts inside a dash run is never a
collapsible character. -/
theorem collapseAux_head_not_dash (l : List Char) :
    ∀ c, (collapseAux true l).head? = some c → isDashOrSpace c = false := by
  induction l with
  | nil => intro c h; simp [collapseAux] at h
  | cons a rest ih =>
    intro c h
    by_cases hd : isDashOrSpace a = true
    · rw [show collapseAux true (a :: rest) = collapseAux true rest by
        simp [collapseAux, hd]] at h
      exact ih c h
    · rw [show collapseAux true (a :: rest) = a :: collapseAux false rest by
        simp [collapseAux, hd]] at h
      simp only [List.head?_cons, Option.some.injEq] at h
      subst h
      simpa using hd

/-- The collapsing substitution never emits two adjacent hyphens. -/
theorem collapseAux_chain (l : List Char) :
    ∀ b, List.Chain' (fun x y => ¬(x = '-' ∧ y = '-')) (collapseAux b l) := by
  induction l with
  | nil => intro b; simp [collapseAux]
  | cons a rest ih =>
    intro b
    by_cases hd : isDashOrSpace a = true
    · rcases b with _ | _
      · rw [show collapseAux false (a :: rest) = '-' :: collapseAux true rest by
          simp [collapseAux, hd]]
        refine List.chain'_cons'.mpr ⟨?_, ih true⟩
        intro y hy
        have := collapseAux_head_not_dash rest y hy
        rintro ⟨-, rfl⟩
        simp [isDashOrSpace] at this
      · rw [show collapseAux true (a :: rest) = collapseAux true rest by
          simp [collapseAux, hd]]
        exact ih true
    · rw [show collapseAux b (a :: rest) = a :: collapseAux false rest by
        simp [collapseAux, hd]]
      refine List.chain'_cons'.mpr ⟨?_, ih false⟩
      intro y _
      rintro ⟨rfl, -⟩
      simp [isDashOrSpace] at hd

/-- A list without adjacent hyphens has no `--` substring. -/
theorem chain_no_double_dash (l : List Char)
    (h : List.Chain' (fun x y => ¬(x = '-' ∧ y = '-')) l) :
    hasSubList ['-', '-'] l = false := by
  induction l with
  | nil => rfl
  | cons c rest ih =>
    rw [hasSubList, Bool.or_eq_false_iff]
    refine ⟨?_, ih h.tail⟩
    cases rest with
    | nil => simp [startsWithList]
    | cons d rest₂ =>
      by_cases hc : c = '-'
      · by_cases hdd : d = '-'
        · subst hc; subst hdd
          exact absurd ⟨rfl, rfl⟩ (List.chain'_cons.mp h).1
        · have hbd : ('-' == d) = false := by
            rw [beq_eq_false_iff_ne]
            exact fun h' => hdd h'.symm
          simp [startsWithList, hbd]
      · have hbc : ('-' == c) = false := by
          rw [beq_eq_false_iff_ne]
          exact fun h' => hc h'.symm
        simp [startsWithList, hbc]

/-- Every character of a collapsed list either came from the input and is
not collapsible, or is a hyphen. -/
theorem mem_collapseAux (l : List Char) :
    ∀ (b : Bool) (c : Char), c ∈ collapseAux b l →
      (c ∈ l ∧ isDashOrSpace c = false) ∨ c = '-' := by
  induction l with
  | nil => intro b c h; simp [collapseAux] at h
  | cons a rest ih =>
    intro b c h
    by_cases hd : isDashOrSpace a = true
    · rcases b with _ | _
      · rw [show collapseAux false (a :: rest) = '-' :: collapseAux true rest by
          simp [collapseAux, hd]] at h
        rcases List.mem_cons.mp h with rfl | h'
        · exact Or.inr rfl
        · rcases ih true c h' with ⟨hm, hnd⟩ | hdash
          · exact Or.inl ⟨List.mem_cons_of_mem _ hm, hnd⟩
          · exact Or.inr hdash
      · rw [show collapseAux true (a :: rest) = collapseAux true rest by
          simp [collapseAux, hd]] at h
        rcases ih true c h with ⟨hm, hnd⟩ | hdash
        · exact Or.inl ⟨List.mem_cons_of_mem _ hm, hnd⟩
        · exact Or.inr hdash
    · rw [show collapseAux b (a :: rest) = a :: collapseAux false rest by
        simp [collapseAux, hd]] at h
      rcases List.mem_cons.mp h with rfl | h'
      · exact Or.inl ⟨List.mem_cons_self _ _, by simpa using hd⟩
      · rcases ih false c h' with ⟨hm, hnd⟩ | hdash
        · exact Or.inl ⟨List.mem_cons_of_mem _ hm, hnd⟩
        · exact Or.inr hdash

/-- The head of a `dropWhile` result never satisfies the predicate. -/
theorem head_dropWhile_false (p : Char → Bool) (l : List Char) :
    ∀ c, ((l.dropWhile p).head? = some c) → p c = false := by
  induction l with
  | nil => intro c h; simp at h
  | cons a rest ih =>
    intro c h
    by_cases ha : p a = true
    · rw [List.dropWhile_cons_of_pos ha] at h
      exact ih c h
    · rw [List.dropWhile_cons_of_neg ha] at h
      simp only [List.head?_cons, Option.some.injEq] at h
      subst h
      simpa using ha

/-- A prefix with a head shares it with the whole list. -/
theorem isPrefix_head {l₁ l₂ : List Char} {c : Char} (hp : l₁ <+: l₂)
    (h : l₁.head? = some c) : l₂.head? = some c := by
  obtain ⟨t, rfl⟩ := hp
  cases l₁ with
  | nil => simp at h
  | cons a r => simpa using h

/-- Character class of every slug: ASCII lowercase letter, digit,
underscore, or hyphen. -/
theorem slugify_chars (s : String) :
    ∀ c ∈ (slugify s).data,
      (97 ≤ c.toNat ∧ c.toNat ≤ 122) ∨ (48 ≤ c.toNat ∧ c.toNat ≤ 57) ∨
        c = '_' ∨ c = '-' := by
  intro c hc
  simp only [slugify] at hc
  have h₁ : c ∈ stripDashes (collapseDashSpace
      ((pyLower s).data.filter (fun c => isWordChar c || isPySpace c || c == '-'))) :=
    List.Sublist.mem hc (List.take_sublist _ _)
  simp only [stripDashes] at h₁
  have h₂ : c ∈ collapseDashSpace
      ((pyLower s).data.filter (fun c => isWordChar c || isPySpace c || c == '-')) := by
    have ha := List.Sublist.mem h₁
      (List.rdropWhile_prefix (fun c => c == '-') _).sublist
    exact List.Sublist.mem ha (List.dropWhile_sublist _)
  rcases mem_collapseAux _ false c h₂ with ⟨hm, hnd⟩ | rfl
  · obtain ⟨hmem, hpred⟩ := List.mem_filter.mp hm
    have hw : isWordChar c = true := by
      rcases Bool.or_eq_true_iff.mp hpred with h | h
      · rcases Bool.or_eq_true_iff.mp h with h' | h'
        · exact h'
        · exfalso
          have : isDashOrSpace c = true := by simp [isDashOrSpace, h']
          simp [this] at hnd
      · exfalso
        have : isDashOrSpace c = true := by simp [isDashOrSpace, h]
        simp [this] at hnd
    obtain ⟨x, hx, rfl⟩ := List.mem_map.mp hmem
    by_cases hup : 65 ≤ x.toNat ∧ x.toNat ≤ 90
    · rw [pyLowerChar, if_pos hup]
      obtain ⟨hl, hr⟩ := hup
      set n := x.toNat with hn
      interval_cases n <;> decide
    · rw [pyLowerChar, if_neg hup] at hw ⊢
      simp only [isWordChar, Bool.or_eq_true_iff, decide_eq_true_eq,
        beq_iff_eq] at hw
      rcases hw with ((h | h) | h) | h
      · exact Or.inl h
      · exact absurd h hup
      · exact Or.inr (Or.inl h)
      · exact Or.inr (Or.inr (Or.inl h))
  · exact Or.inr (Or.inr (Or.inr rfl))

/-- A slug never starts with a hyphen. -/
theorem slugify_head (s : String) (c : Char)
    (h : (slugify s).data.head? = some c) : c ≠ '-' := by
  simp only [slugify] at h
  have h₁ := isPrefix_head (List.take_prefix _ _) h
  have h₂ := isPrefix_head (List.rdropWhile_prefix _ _) h₁
  have h₃ := head_dropWhile_false _ _ _ h₂
  intro hcon
  subst hcon
  simp at h₃

/-- A slug never contains two adjacent hyphens. -/
theorem slugify_no_ddash (s : String) :
    hasSubList ['-', '-'] (slugify s).data = false := by
  apply chain_no_double_dash
  have hchain := collapseAux_chain
    ((pyLower s).data.filter (fun c => isWordChar c || isPySpace c || c == '-')) false
  have h₁ := hchain.suffix (List.dropWhile_suffix (fun c => c == '-'))
  have h₂ := h₁.prefix (List.rdropWhile_prefix (fun c => c == '-') _)
  exact h₂.prefix (List.take_prefix _ _)

/-- A slug has at most `maxLength` characters (default 50). -/
theorem slugify_length (s : String) : (slugify s).length ≤ 50 := by
  have : (slugify s).length = ((stripDashes (collapseDashSpace
      ((pyLower s).data.filter
        (fun c => isWordChar c || isPySpace c || c == '-')))).take 50).length := rfl
  rw [this, List.length_take]
  exact min_le_left _ _

/-- `digitChar` is injective on digits. -/
theorem digitChar_inj (d e : Nat) (hd : d < 10) (he : e < 10)
    (h : digitChar d = digitChar e) : d = e := by
  interval_cases d <;> interval_cases e <;> first | rfl | exact absurd h (by decide)

/-- A rendered non-zero number is non-empty. -/
theorem natDigitsAux_ne_nil (fuel n : Nat) (hf : fuel ≠ 0) (hn : n ≠ 0) :
    natDigitsAux fuel n ≠ [] := by
  cases fuel with
  | zero => exact absurd rfl hf
  | succ f =>
    rw [natDigitsAux, if_neg hn]
    simp

/-- Decimal rendering is injective given enough fuel. -/
theorem natDigitsAux_inj :
    ∀ (f₁ : Nat) {f₂ m n : Nat}, m < 10 ^ f₁ → n < 10 ^ f₂ →
      natDigitsAux f₁ m = natDigitsAux f₂ n → m = n := by
  intro f₁
  induction f₁ with
  | zero =>
    intro f₂ m n hm hn h
    have hm0 : m = 0 := by simpa using hm
    subst hm0
    have : natDigitsAux f₂ n = [] := by
      rw [← h]; rfl
    by_cases hn0 : n = 0
    · exact hn0.symm
    · cases f₂ with
      | zero =>
        have hn' : n = 0 := by simpa using hn
        omega
      | succ f => exact absurd this (natDigitsAux_ne_nil _ _ (by simp) hn0)
  | succ f ih =>
    intro f₂ m n hm hn h
    by_cases hm0 : m = 0
    · subst hm0
      have h0 : natDigitsAux (f + 1) 0 = [] := by rw [natDigitsAux]; simp
      rw [h0] at h
      by_cases hn0 : n = 0
      · exact hn0.symm
      · cases f₂ with
        | zero =>
          have hn' : n = 0 := by simpa using hn
          omega
        | succ g => exact absurd h.symm (natDigitsAux_ne_nil _ _ (by simp) hn0)
    · have hn0 : n ≠ 0 := by
        intro hn0
        subst hn0
        have h0 : natDigitsAux f₂ 0 = [] := by
          cases f₂ with
          | zero => rfl
          | succ g => rw [natDigitsAux]; simp
        rw [h0] at h
        exact natDigitsAux_ne_nil (f + 1) m (by simp) hm0 h
      cases f₂ with
      | zero =>
        have hn' : n = 0 := by simpa using hn
        exact absurd hn' hn0
      | succ g =>
        rw [natDigitsAux, if_neg hm0, natDigitsAux, if_neg hn0] at h
        have h' := congrArg List.reverse h
        simp only [List.reverse_append, List.reverse_cons, List.reverse_nil,
          List.nil_append, List.singleton_append, List.cons.injEq] at h'
        obtain ⟨hdig, hrev⟩ := h'
        have htails : natDigitsAux f (m / 10) = natDigitsAux g (n / 10) := by
          have := congrArg List.reverse hrev
          simpa using this
        have hmod : m % 10 = n % 10 :=
          digitChar_inj _ _ (Nat.mod_lt _ (by norm_num)) (Nat.mod_lt _ (by norm_num)) hdig
        have hdiv : m / 10 = n / 10 := by
          refine ih ?_ ?_ htails
          · exact (Nat.div_lt_iff_lt_mul (by norm_num)).mpr
              (by rw [← pow_succ]; exact hm)
          · exact (Nat.div_lt_iff_lt_mul (by norm_num)).mpr
              (by rw [← pow_succ]; exact hn)
        omega

/-- The modelled compact timestamp rendering is injective: distinct
whole-second instants give distinct filename prefixes, as
`%Y-%m-%dT%H%M%S` does. -/
theorem tsCompact_inj {m n : Nat} (h : tsCompact m = tsCompact n) : m = n := by
  have hd : natDigitsAux (m + 1) m = natDigitsAux (n + 1) n :=
    congrArg String.data h
  refine natDigitsAux_inj (m + 1) ?_ ?_ hd
  · exact lt_of_lt_of_le (Nat.lt_pow_self (by norm_num) m)
      (Nat.pow_le_pow_right (by norm_num) (Nat.le_succ m))
  · exact lt_of_lt_of_le (Nat.lt_pow_self (by norm_num) n)
      (Nat.pow_le_pow_right (by norm_num) (Nat.le_succ n))

/-! ### Claim C8 -/

/-- Claim C8 (amended): the output filename is compact timestamp plus
the slug of the title (or of the URL's host when the title is empty);
the slug is lowercase and contains only word characters and hyphens —
underscores included, since Python's `\w` keeps them — with whitespace
and hyphen runs collapsed to single hyphens and no leading hyphen; the
leading/trailing trim happens before the 50-character truncation, so
the length is at most 50 but a trailing hyphen can survive truncation;
the metadata block carries a `source_note` line with `\x22` escaped as
`\\\x22` exactly when the note is non-empty. -/
theorem write_output_spec :
    (∀ (url title content note : String) (ts : Nat),
      (write_output url title content note ts).filename
          = tsCompact ts ++ "-" ++ outSlug title url ++ ".md" ∧
      (write_output url title content note ts).body
          = frontmatterOf url title note ts ++ content) ∧
    (∀ s : String, ∀ c ∈ (slugify s).data,
      (97 ≤ c.toNat ∧ c.toNat ≤ 122) ∨ (48 ≤ c.toNat ∧ c.toNat ≤ 57) ∨
        c = '_' ∨ c = '-') ∧
    (∀ s : String, (slugify s).length ≤ 50) ∧
    (∀ (s : String) (c : Char), (slugify s).data.head? = some c → c ≠ '-') ∧
    (∀ s : String, hasSubList ['-', '-'] (slugify s).data = false) ∧
    (∀ (url title note : String) (ts : Nat), note ≠ "" →
      frontmatterOf url title note ts =
        "---\nurl: " ++ url ++ "\ntitle: " ++ title ++ "\nfetched_at: "
          ++ tsIso ts ++ "\n"
          ++ ("source_note: \"" ++ escapeQuotes note ++ "\"\n") ++ "---\n\n") ∧
    (∀ (url title : String) (ts : Nat),
      frontmatterOf url title "" ts =
        "---\nurl: " ++ url ++ "\ntitle: " ++ title ++ "\nfetched_at: "
          ++ tsIso ts ++ "\n" ++ "---\n\n") := by
  refine ⟨fun url title content note ts => ⟨rfl, rfl⟩,
          slugify_chars, slugify_length, slugify_head, slugify_no_ddash,
          ?_, ?_⟩
  · intro url title note ts h
    rw [frontmatterOf, if_pos h]
  · intro url title ts
    rw [frontmatterOf, if_neg (by simp)]
    rw [String.append_empty]

/-- Counterexample to C8 as stated: `slugify` keeps underscores (not
alphanumeric, not a hyphen), and truncation to 50 characters happens
after the hyphen trim, so a slug can end in a hyphen. -/
theorem write_output_spec_cex :
    slugify "a_b" = "a_b" ∧
    slugify longATitle = ⟨List.replicate 49 'a' ++ ['-']⟩ ∧
    (slugify longATitle).data.getLast? = some '-' := by
  exact ⟨by decide, by decide, by decide⟩

/-- Witness for C8 on the spec's round-trip scenario: title
`"Hello, World!"` slugs to `hello-world`; the metadata block has a
`title:` line and no `source_note` line for an empty note, and an
escaped `source_note` line for a note containing a double quote. -/
theorem write_output_spec_witness :
    frontmatterOf "https://example.com" "Hello, World!" "" 42 =
      "---\nurl: " ++ "https://example.com" ++ "\ntitle: " ++ "Hello, World!"
        ++ "\nfetched_at: " ++ tsIso 42 ++ "\n" ++ "---\n\n" ∧
    frontmatterOf "https://example.com" "T" "say \"hi\"" 42 =
      "---\nurl: " ++ "https://example.com" ++ "\ntitle: " ++ "T"
        ++ "\nfetched_at: " ++ tsIso 42 ++ "\n"
        ++ ("source_note: \"" ++ escapeQuotes "say \"hi\"" ++ "\"\n")
        ++ "---\n\n" ∧
    slugify "Hello, World!" = "hello-world" ∧
    escapeQuotes "say \"hi\"" = "say \\\"hi\\\"" ∧
    containsStr (frontmatterOf "https://example.com" "Hello, World!" "" 42)
      "title: Hello, World!" = true ∧
    containsStr (frontmatterOf "https://example.com" "Hello, World!" "" 42)
      "source_note" = false ∧
    (write_output "https://example.com" "Hello, World!" "body" "" 42).filename
      = "42-hello-world.md" := by
  refine ⟨write_output_spec.2.2.2.2.2.2 "https://example.com" "Hello, World!" 42,
          write_output_spec.2.2.2.2.2.1 "https://example.com" "T" "say \"hi\"" 42
            (by decide),
          by decide, by decide, by decide, by decide, ?_⟩
  rw [(write_output_spec.1 "https://example.com" "Hello, World!" "body" "" 42).1]
  decide

/-! ### Claim C9 -/

/-- The failure count of the per-item loop: one per truthy-URL item
whose fetch fails. -/
theorem processItems_failed (fetchO : JVal → FetchResult) (clock : Nat → Nat) :
    ∀ (items : List PQItem) (i k : Nat),
      (processItems fetchO clock items i k).2.1 =
        (items.filter (fun it => pyTruthy it.url && !(fetchO it.url).success)).length := by
  intro items
  induction items with
  | nil => intro i k; rfl
  | cons it rest ih =>
    intro i k
    by_cases ht : pyTruthy it.url = true
    · by_cases hs : (fetchO it.url).success = true
      · simp [processItems, ht, hs, List.filter_cons, ih]
      · simp only [Bool.not_eq_true] at hs
        simp [processItems, ht, hs, List.filter_cons, ih]
    · simp only [Bool.not_eq_true] at ht
      simp [processItems, ht, List.filter_cons, ih]

/-- One queue-file step: the file is deleted exactly when it does not
fail entirely, and contributes `fileFailCount` failures. -/
theorem processFile_spec (jp : String → Option JVal)
    (fetchO : JVal → FetchResult) (clock : Nat → Nat) (f : QFile) (k : Nat) :
    (processFile jp fetchO clock f k).2.2.1 = !(fileFails jp f) ∧
    (processFile jp fetchO clock f k).2.1 = fileFailCount jp fetchO f := by
  rcases hc : f.content with _ | c
  · simp [processFile, fileFails, fileFailCount, hc]
  · rcases hp : parse_input_file jp c with e | items
    · simp [processFile, fileFails, fileFailCount, hc, hp]
    · by_cases he : items.isEmpty = true
      · simp [processFile, fileFails, fileFailCount, hc, hp, he]
      · simp only [Bool.not_eq_true] at he
        simp [processFile, fileFails, fileFailCount, hc, hp, he,
          processItems_failed]

/-- The queue fold: which files stay, which are deleted, how many
failures are counted. -/
theorem processQueueAux_spec (jp : String → Option JVal)
    (fetchO : JVal → FetchResult) (clock : Nat → Nat) :
    ∀ (files : List QFile) (k : Nat),
      (processQueueAux jp fetchO clock files k).remaining
          = (files.filter (fileFails jp)).map QFile.name ∧
      (processQueueAux jp fetchO clock files k).filesProcessed
          = (files.filter (fun f => !fileFails jp f)).map QFile.name ∧
      (processQueueAux jp fetchO clock files k).failed
          = (files.map (fileFailCount jp fetchO)).sum := by
  intro files
  induction files with
  | nil => intro k; exact ⟨rfl, rfl, rfl⟩
  | cons f rest ih =>
    intro k
    obtain ⟨hdel, hfail⟩ := processFile_spec jp fetchO clock f k
    obtain ⟨ihr, ihp, ihf⟩ := ih (processFile jp fetchO clock f k).2.2.2.2
    by_cases hff : fileFails jp f = true
    · refine ⟨?_, ?_, ?_⟩
      · simp only [processQueueAux, ihr, hdel, hff]
        simp [List.filter_cons, hff]
      · simp only [processQueueAux, ihp, hdel, hff]
        simp [List.filter_cons, hff]
      · simp only [processQueueAux, ihf, hfail]
        simp
    · simp only [Bool.not_eq_true] at hff
      refine ⟨?_, ?_, ?_⟩
      · simp only [processQueueAux, ihr, hdel, hff]
        simp [List.filter_cons, hff]
      · simp only [processQueueAux, ihp, hdel, hff]
        simp [List.filter_cons, hff]
      · simp only [processQueueAux, ihf, hfail]
        simp

/-- Claim C9 (amended): a queue file that fails entirely — unreadable,
parse exception, or zero parsed URLs — is counted as a failure in the
run summary but is NOT deleted: it remains in the queue directory, and
only files whose item list was actually iterated are deleted (the
original claim asserted such files are still consumed). -/
theorem queue_failure_spec (jp : String → Option JVal)
    (fetchO : JVal → FetchResult) (clock : Nat → Nat) (files : List QFile) :
    (process_queue jp fetchO clock files).remaining
        = (files.filter
            (fun f => f.name != ".gitkeep" && fileFails jp f)).map QFile.name ∧
    (process_queue jp fetchO clock files).filesProcessed
        = (files.filter
            (fun f => f.name != ".gitkeep" && !fileFails jp f)).map QFile.name ∧
    (process_queue jp fetchO clock files).failed
        = ((files.filter (fun f => f.name != ".gitkeep")).map
            (fileFailCount jp fetchO)).sum := by
  obtain ⟨h₁, h₂, h₃⟩ := processQueueAux_spec jp fetchO clock
    (files.filter (fun f => f.name != ".gitkeep")) 0
  refine ⟨?_, ?_, ?_⟩
  · rw [process_queue, h₁, List.filter_filter]
    congr 1
    apply List.filter_congr
    intro a _
    rw [Bool.and_comm]
  · rw [process_queue, h₂, List.filter_filter]
    congr 1
    apply List.filter_congr
    intro a _
    rw [Bool.and_comm]
  · rw [process_queue, h₃]

/-- Counterexample to C9 as stated: a queue file with no URLs and an
unreadable queue file are each counted as failures but are NOT
deleted — both remain in the queue and neither is listed as
processed. -/
theorem queue_failure_cex :
    (process_queue jpNone fetchNever (fun _ => 0)
        [⟨"q1.md", some "no links here"⟩, ⟨"q2.md", none⟩]).failed = 2 ∧
    (process_queue jpNone fetchNever (fun _ => 0)
        [⟨"q1.md", some "no links here"⟩, ⟨"q2.md", none⟩]).remaining
      = ["q1.md", "q2.md"] ∧
    (process_queue jpNone fetchNever (fun _ => 0)
        [⟨"q1.md", some "no links here"⟩, ⟨"q2.md", none⟩]).filesProcessed
      = [] := by
  exact ⟨rfl, rfl, rfl⟩

/-! ### Claim C10 -/

/-- The filename produced by `write_output`, in components. -/
theorem write_output_filename (url title content note : String) (ts : Nat) :
    (write_output url title content note ts).filename
      = tsCompact ts ++ "-" ++ outSlug title url ++ ".md" := rfl

/-- Appending a fixed string is injective. -/
theorem strConcatInj {a b : String} (tl : String) (h : a ++ tl = b ++ tl) :
    a = b := by
  have hd : a.data ++ tl.data = b.data ++ tl.data := congrArg String.data h
  exact strExt (List.append_cancel_right hd)

/-- Timestamps of the per-item loop when every item is truthy and every
fetch succeeds: the `j`-th item gets the `(k+j)`-th clock reading plus
`i+j` seconds. -/
theorem processItems_ts (fetchO : JVal → FetchResult) (clock : Nat → Nat) :
    ∀ (items : List PQItem) (i k : Nat),
      (∀ it ∈ items, pyTruthy it.url = true ∧ (fetchO it.url).success = true) →
      (processItems fetchO clock items i k).2.2.1.map Prod.fst
        = (List.range items.length).map (fun j => clock (k + j) + (i + j)) := by
  intro items
  induction items with
  | nil => intro i k _; rfl
  | cons it rest ih =>
    intro i k hall
    obtain ⟨ht, hs⟩ := hall it (List.mem_cons_self _ _)
    have ihr := ih (i + 1) (k + 1) (fun x hx => hall x (List.mem_cons_of_mem _ hx))
    simp only [processItems, ht, hs, if_true, List.map_cons, List.length_cons,
      List.range_succ_eq_map, List.map_map]
    refine congrArg₂ List.cons (by simp) ?_
    rw [ihr]
    apply List.map_congr_left
    intro j _
    simp only [Function.comp_apply, Nat.succ_eq_add_one]
    have h₁ : k + 1 + j = k + (j + 1) := by omega
    have h₂ : i + 1 + j = i + (j + 1) := by omega
    rw [h₁, h₂]

/-- Filenames of the per-item loop when additionally every item slugs to
the same `s` (titles collide). -/
theorem processItems_names (fetchO : JVal → FetchResult) (clock : Nat → Nat)
    (s : String) :
    ∀ (items : List PQItem) (i k : Nat),
      (∀ it ∈ items, pyTruthy it.url = true ∧ (fetchO it.url).success = true) →
      (∀ it ∈ items, outSlug (fetchO it.url).title (jvalStr it.url) = s) →
      (processItems fetchO clock items i k).2.2.1.map (fun o => o.2.filename)
        = (List.range items.length).map
            (fun j => tsCompact (clock (k + j) + (i + j)) ++ "-" ++ s ++ ".md") := by
  intro items
  induction items with
  | nil => intro i k _ _; rfl
  | cons it rest ih =>
    intro i k hall hslug
    obtain ⟨ht, hs⟩ := hall it (List.mem_cons_self _ _)
    have ihr := ih (i + 1) (k + 1)
      (fun x hx => hall x (List.mem_cons_of_mem _ hx))
      (fun x hx => hslug x (List.mem_cons_of_mem _ hx))
    simp only [processItems, ht, hs, if_true, List.map_cons, List.length_cons,
      List.range_succ_eq_map, List.map_map]
    refine congrArg₂ List.cons ?_ ?_
    · rw [write_output_filename, hslug it (List.mem_cons_self _ _)]
      simp
    · rw [ihr]
      apply List.map_congr_left
      intro j _
      simp only [Function.comp_apply, Nat.succ_eq_add_one]
      have h₁ : k + 1 + j = k + (j + 1) := by omega
      have h₂ : i + 1 + j = i + (j + 1) := by omega
      rw [h₁, h₂]

/-- Claim C10 (amended): in one file's batch with every fetch
succeeding, the `i`-th item's timestamp is that item's own clock reading
plus `i` seconds; two items are exactly 0 and 1 seconds offset when the
clock reading does not advance between them; under a monotone clock the
batch timestamps strictly increase, so filenames within the file's
batch stay distinct even when every title slugs identically.  (The
original claim's run-wide filename uniqueness and exact 1-second spacing
fail: the clock is re-read per item, and the index offset restarts at 0
for each queue file.) -/
theorem batch_timestamp_spec :
    (∀ (fetchO : JVal → FetchResult) (clock : Nat → Nat) (items : List PQItem),
      (∀ it ∈ items, pyTruthy it.url = true ∧ (fetchO it.url).success = true) →
      (processItems fetchO clock items 0 0).2.2.1.map Prod.fst
        = (List.range items.length).map (fun j => clock j + j)) ∧
    (∀ (fetchO : JVal → FetchResult) (clock : Nat → Nat) (it₁ it₂ : PQItem),
      (∀ it ∈ [it₁, it₂], pyTruthy it.url = true ∧ (fetchO it.url).success = true) →
      clock 1 = clock 0 →
      (processItems fetchO clock [it₁, it₂] 0 0).2.2.1.map Prod.fst
        = [clock 0, clock 0 + 1]) ∧
    (∀ (fetchO : JVal → FetchResult) (clock : Nat → Nat) (items : List PQItem),
      (∀ it ∈ items, pyTruthy it.url = true ∧ (fetchO it.url).success = true) →
      (∀ a b : Nat, a ≤ b → clock a ≤ clock b) →
      ((processItems fetchO clock items 0 0).2.2.1.map Prod.fst).Pairwise (· < ·)) ∧
    (∀ (fetchO : JVal → FetchResult) (clock : Nat → Nat) (items : List PQItem)
        (s : String),
      (∀ it ∈ items, pyTruthy it.url = true ∧ (fetchO it.url).success = true) →
      (∀ a b : Nat, a ≤ b → clock a ≤ clock b) →
      (∀ it ∈ items, outSlug (fetchO it.url).title (jvalStr it.url) = s) →
      ((processItems fetchO clock items 0 0).2.2.1.map
          (fun o => o.2.filename)).Nodup) := by
  have hbase : ∀ (fetchO : JVal → FetchResult) (clock : Nat → Nat)
      (items : List PQItem),
      (∀ it ∈ items, pyTruthy it.url = true ∧ (fetchO it.url).success = true) →
      (processItems fetchO clock items 0 0).2.2.1.map Prod.fst
        = (List.range items.length).map (fun j => clock j + j) := by
    intro fetchO clock items hall
    rw [processItems_ts fetchO clock items 0 0 hall]
    simp
  refine ⟨hbase, ?_, ?_, ?_⟩
  · intro fetchO clock it₁ it₂ hall hc
    rw [hbase _ _ _ hall]
    simp [List.range_succ, hc]
  · intro fetchO clock items hall hmono
    rw [hbase _ _ _ hall, List.pairwise_map]
    refine (List.pairwise_lt_range _).imp ?_
    intro a b hab
    exact Nat.add_lt_add_of_le_of_lt (hmono a b (le_of_lt hab)) hab
  · intro fetchO clock items s hall hmono hslug
    rw [processItems_names fetchO clock s items 0 0 hall hslug]
    refine List.Pairwise.map _ ?_ (List.pairwise_lt_range items.length)
    intro a b hab heq
    have hts : tsCompact (clock (0 + a) + (0 + a))
        = tsCompact (clock (0 + b) + (0 + b)) :=
      strConcatInj "-" (strConcatInj s (strConcatInj ".md" heq))
    have := tsCompact_inj hts
    have hlt : clock (0 + a) + (0 + a) < clock (0 + b) + (0 + b) := by
      simp only [Nat.zero_add]
      exact Nat.add_lt_add_of_le_of_lt (hmono a b (le_of_lt hab)) hab
    omega

/-- Counterexample to C10 as stated: two queue files processed in the
same second with colliding titles receive the SAME filename (uniqueness
within the run fails), and two items of one batch are 8 — not 1 —
seconds apart when the clock advances 7 seconds between their fetches. -/
theorem batch_timestamp_cex :
    (process_queue jpNone fetchTitleT (fun _ => 100)
        [⟨"f1.md", some "https://example.com/a"⟩,
         ⟨"f2.md", some "https://example.com/b"⟩]).outputs.map
        (fun o => o.2.filename)
      = ["100-same-title.md", "100-same-title.md"] ∧
    ¬ ((process_queue jpNone fetchTitleT (fun _ => 100)
        [⟨"f1.md", some "https://example.com/a"⟩,
         ⟨"f2.md", some "https://example.com/b"⟩]).outputs.map
        (fun o => o.2.filename)).Nodup ∧
    (process_queue jpNone fetchTitleT (fun k => 100 + 7 * k)
        [⟨"g.md", some "- https://example.com/a\n- https://example.com/b"⟩]).outputs.map
        Prod.fst
      = [100, 108] := by
  exact ⟨by decide, by decide, by decide⟩

/-- Witness for C10 at a concrete two-item batch. -/
theorem batch_timestamp_spec_witness :
    (processItems fetchTitleT (fun _ => 100) [itemA, itemB] 0 0).2.2.1.map
        Prod.fst = [100, 100 + 1] ∧
    ((processItems fetchTitleT (fun k => 100 + k) [itemA, itemB] 0 0).2.2.1.map
        Prod.fst).Pairwise (· < ·) ∧
    ((processItems fetchTitleT (fun k => 100 + k) [itemA, itemB] 0 0).2.2.1.map
        (fun o => o.2.filename)).Nodup := by
  refine ⟨?_, ?_, ?_⟩
  · exact batch_timestamp_spec.2.1 fetchTitleT (fun _ => 100) itemA itemB
      (by decide) rfl
  · exact batch_timestamp_spec.2.2.1 fetchTitleT (fun k => 100 + k) [itemA, itemB]
      (by decide) (fun a b h => by show 100 + a ≤ 100 + b; omega)
  · exact batch_timestamp_spec.2.2.2 fetchTitleT (fun k => 100 + k) [itemA, itemB]
      (slugify "Same Title") (by decide) (fun a b h => by show 100 + a ≤ 100 + b; omega) (by decide)

end Dmz
